import Mathlib

/-!
Shallow embedding of the image-edit engine (`ImageManager` in
`src/question1.py`) of the HIT137 Group 16 Assignment 3 repository.

Pixel buffers are modelled as explicit width/height/row-major data; every
Python `.copy()` is value semantics here.  The OpenCV library calls whose
pixel-level content is external to the repository (`cv2.GaussianBlur`'s
smoothing and `cv2.resize`'s resampling) are parameters of the model via the
`Cv2` structure, with only their documented shape behaviour fixed;
`cv2.cvtColor` grayscale conversion is modelled concretely with OpenCV's
fixed-point luminance coefficients.  Python exceptions are modelled with
`Except`: the typed `ValueError`s raised by the engine and the untyped
`AttributeError` obtained by dereferencing an absent (`None`) buffer.
-/

set_option autoImplicit false

/-- A pixel in OpenCV channel order: (blue, green, red). -/
abbrev Pixel := Nat × Nat × Nat

/-- An owned rectangular pixel buffer: width, height and row-major data. -/
structure ImageBuffer where
  width : Nat
  height : Nat
  data : List Pixel
deriving DecidableEq, Repr

/-- Failures the engine can produce:
`loadError` is `ValueError("Failed to load image.")`;
`invalidCropArea` is `ValueError("Invalid crop area.")`;
`noneTypeError` is the untyped `AttributeError` raised when a method
dereferences a buffer that is still `None`. -/
inductive EngineError where
  | loadError
  | invalidCropArea
  | noneTypeError
deriving DecidableEq, Repr

/-- The external cv2 primitives whose pixel content is outside the
repository.  Only the content functions are parameters; the documented
shape contracts (blur preserves dimensions, resize produces the requested
dimensions) are fixed in `Cv2.gaussianBlur` / `Cv2.resizeImg` below. -/
structure Cv2 where
  blurData : ImageBuffer → List Pixel
  resampleData : ImageBuffer → Nat → Nat → List Pixel

/-- `cv2.GaussianBlur(img, (9,9), 0)`: the destination has the same size as
the source (OpenCV contract); the smoothed content is external. -/
def Cv2.gaussianBlur (c : Cv2) (b : ImageBuffer) : ImageBuffer :=
  ⟨b.width, b.height, c.blurData b⟩

/-- `cv2.resize(img, (w, h), interpolation=cv2.INTER_AREA)`: the destination
has exactly the requested dimensions; the resampled content is external. -/
def Cv2.resizeImg (c : Cv2) (b : ImageBuffer) (w h : Nat) : ImageBuffer :=
  ⟨w, h, c.resampleData b w h⟩

/-- OpenCV fixed-point BGR→GRAY luminance:
`Y = (1868*B + 9617*G + 4899*R + 8192) >> 14`
(the fixed-point form of `0.114*B + 0.587*G + 0.299*R`). -/
def grayValue (p : Pixel) : Nat :=
  (1868 * p.1 + 9617 * p.2.1 + 4899 * p.2.2 + 8192) / 16384

/-- `cv2.cvtColor(img, COLOR_BGR2GRAY)` followed by
`cv2.cvtColor(gray, COLOR_GRAY2BGR)`: every pixel is replaced by its
luminance replicated into all three channels; dimensions are unchanged. -/
def grayBGR (b : ImageBuffer) : ImageBuffer :=
  ⟨b.width, b.height, b.data.map (fun p => (grayValue p, grayValue p, grayValue p))⟩

/-- The `ImageManager` session state of `question1.py`:
`original`, `current` and `resize_base` start as `None`;
`history` is the undo stack (oldest first, Python list `append`/`pop`);
`redo_stack` is the redo stack (oldest first). -/
structure ImageManager where
  original : Option ImageBuffer
  current : Option ImageBuffer
  resize_base : Option ImageBuffer
  history : List ImageBuffer
  redo_stack : List ImageBuffer
deriving DecidableEq, Repr

/-- `ImageManager.__init__`: empty state for images and history stacks. -/
def ImageManager.init : ImageManager := ⟨none, none, none, [], []⟩

/-- `ImageManager.load`: `cv2.imread` either fails (`none`) or yields a
decoded buffer; on success all three buffers are set to copies of it and
both stacks are cleared. -/
def ImageManager.load (m : ImageManager) (img : Option ImageBuffer) :
    Except EngineError ImageManager :=
  match img with
  | none => .error .loadError
  | some i =>
      .ok { m with original := some i, current := some i, resize_base := some i,
                   history := [], redo_stack := [] }

/-- `ImageManager.push_history`: if `current` is not `None`, append a copy of
it to `history`, clear `redo_stack`, and if the history now holds more than
20 states drop the oldest (`pop(0)`). -/
def ImageManager.push_history (m : ImageManager) : ImageManager :=
  match m.current with
  | none => m
  | some cur =>
      let h := m.history ++ [cur]
      { m with history := if h.length > 20 then h.drop 1 else h,
               redo_stack := [] }

/-- numpy slicing `img[y1:y2, x1:x2]` for ordered in-range bounds: a new
buffer of the selected rows and columns. -/
def sliceBuf (b : ImageBuffer) (y1 y2 x1 x2 : Nat) : ImageBuffer :=
  ⟨x2 - x1, y2 - y1,
   ((List.range (y2 - y1)).map (fun r =>
      (List.range (x2 - x1)).map (fun c =>
        b.data.getD ((y1 + r) * b.width + (x1 + c)) (0, 0, 0)))).flatten⟩

/-- `ImageManager.crop(coords)`: reads `current.shape` (an untyped
`AttributeError` when `current` is `None`), clamps and orders the
coordinates, raises `ValueError("Invalid crop area.")` on a degenerate
rectangle, otherwise pushes history and replaces both `current` and
`resize_base` by the cropped copy. -/
def ImageManager.crop (m : ImageManager) (coords : Int × Int × Int × Int) :
    Except EngineError ImageManager :=
  match m.current with
  | none => .error .noneTypeError
  | some cur =>
      let (x1, y1, x2, y2) := coords
      let w : Int := cur.width
      let h : Int := cur.height
      let x1' := max 0 (min x1 x2)
      let x2' := min w (max x1 x2)
      let y1' := max 0 (min y1 y2)
      let y2' := min h (max y1 y2)
      if x2' ≤ x1' ∨ y2' ≤ y1' then .error .invalidCropArea
      else
        let m' := m.push_history
        let newCur := sliceBuf cur y1'.toNat y2'.toNat x1'.toNat x2'.toNat
        .ok { m' with current := some newCur, resize_base := some newCur }

/-- `ImageManager.resize(percent)`: returns silently when `resize_base` is
`None`; otherwise pushes history and sets `current` to `resize_base`
resampled to `max(1, int(shape*percent/100))` in each dimension
(`int(...)` truncates toward zero, modelled by `Int.tdiv`).
`resize_base` itself is not assigned. -/
def ImageManager.resize (c : Cv2) (m : ImageManager) (percent : Int) : ImageManager :=
  match m.resize_base with
  | none => m
  | some base =>
      let m' := m.push_history
      let w : Nat := (max 1 (Int.tdiv ((base.width : Int) * percent) 100)).toNat
      let h : Nat := (max 1 (Int.tdiv ((base.height : Int) * percent) 100)).toNat
      { m' with current := some (c.resizeImg base w h) }

/-- `ImageManager.grayscale`: when `current` is not `None`, push history and
replace `current` by its gray-then-BGR conversion.  `resize_base` is not
assigned. -/
def ImageManager.grayscale (m : ImageManager) : ImageManager :=
  match m.current with
  | none => m
  | some cur => { m.push_history with current := some (grayBGR cur) }

/-- `ImageManager.blur`: when `current` is not `None`, push history and
replace `current` by its Gaussian blur.  `resize_base` is not assigned. -/
def ImageManager.blur (c : Cv2) (m : ImageManager) : ImageManager :=
  match m.current with
  | none => m
  | some cur => { m.push_history with current := some (c.gaussianBlur cur) }

/-- `ImageManager.undo`: if `history` is non-empty, append a copy of
`current` to `redo_stack` (an untyped `AttributeError` if `current` is
`None`), pop the last history entry into `current`, set `resize_base` to a
copy of it, and return `True`; otherwise return `False`. -/
def ImageManager.undo (m : ImageManager) : Except EngineError (ImageManager × Bool) :=
  match m.history.getLast? with
  | none => .ok (m, false)
  | some prev =>
      match m.current with
      | none => .error .noneTypeError
      | some cur =>
          .ok ({ m with current := some prev, resize_base := some prev,
                        history := m.history.dropLast,
                        redo_stack := m.redo_stack ++ [cur] }, true)

/-- `ImageManager.redo`: if `redo_stack` is non-empty, append a copy of
`current` to `history` (no size cap here), pop the last redo entry into
`current`, set `resize_base` to a copy of it, and return `True`; otherwise
return `False`. -/
def ImageManager.redo (m : ImageManager) : Except EngineError (ImageManager × Bool) :=
  match m.redo_stack.getLast? with
  | none => .ok (m, false)
  | some nxt =>
      match m.current with
      | none => .error .noneTypeError
      | some cur =>
          .ok ({ m with current := some nxt, resize_base := some nxt,
                        history := m.history ++ [cur],
                        redo_stack := m.redo_stack.dropLast }, true)

/-- `ImageManager.reset`: if `original` is not `None`, restore `current` and
`resize_base` from it, clear both stacks and return `True`; otherwise
return `False`. -/
def ImageManager.reset (m : ImageManager) : ImageManager × Bool :=
  match m.original with
  | none => (m, false)
  | some o =>
      ({ m with current := some o, resize_base := some o,
                history := [], redo_stack := [] }, true)

/-- The four operations that (can) mutate `current`, with their inputs. -/
inductive MutOp where
  | cropOp (coords : Int × Int × Int × Int)
  | resizeOp (percent : Int)
  | grayscaleOp
  | blurOp
deriving DecidableEq, Repr

/-- Dispatch a mutating operation; the methods that cannot raise are wrapped
in `Except.ok`. -/
def applyOp (c : Cv2) (op : MutOp) (m : ImageManager) :
    Except EngineError ImageManager :=
  match op with
  | .cropOp coords => m.crop coords
  | .resizeOp p => .ok (ImageManager.resize c m p)
  | .grayscaleOp => .ok m.grayscale
  | .blurOp => .ok (m.blur c)

/-- The state after a (successful) `undo`; unchanged if `undo` raised. -/
def afterUndo (m : ImageManager) : ImageManager :=
  match m.undo with
  | .ok r => r.1
  | .error _ => m

/-- The state after a (successful) `redo`; unchanged if `redo` raised. -/
def afterRedo (m : ImageManager) : ImageManager :=
  match m.redo with
  | .ok r => r.1
  | .error _ => m

/-- Session states reachable from `ImageManager.__init__()` by the public
operations (an operation that raises leaves the state unchanged, so only
`.ok` results produce new states). -/
inductive Reachable (c : Cv2) : ImageManager → Prop where
  | start : Reachable c ImageManager.init
  | loadStep (m : ImageManager) (img : Option ImageBuffer) (m' : ImageManager) :
      Reachable c m → m.load img = .ok m' → Reachable c m'
  | cropStep (m : ImageManager) (coords : Int × Int × Int × Int) (m' : ImageManager) :
      Reachable c m → m.crop coords = .ok m' → Reachable c m'
  | resizeStep (m : ImageManager) (p : Int) :
      Reachable c m → Reachable c (ImageManager.resize c m p)
  | grayscaleStep (m : ImageManager) :
      Reachable c m → Reachable c m.grayscale
  | blurStep (m : ImageManager) :
      Reachable c m → Reachable c (m.blur c)
  | undoStep (m : ImageManager) (r : ImageManager × Bool) :
      Reachable c m → m.undo = .ok r → Reachable c r.1
  | redoStep (m : ImageManager) (r : ImageManager × Bool) :
      Reachable c m → m.redo = .ok r → Reachable c r.1
  | resetStep (m : ImageManager) :
      Reachable c m → Reachable c m.reset.1

/-- Collect the boolean results of `n` consecutive `undo` calls (stopping if
one raises, which never happens on the concrete states used below). -/
def undoResults : Nat → ImageManager → List Bool
  | 0, _ => []
  | n + 1, m =>
      match m.undo with
      | .error _ => []
      | .ok (m', b) => b :: undoResults n m'

/-- Apply a sequence of `resize` calls with the given percent values. -/
def applyResizes (c : Cv2) (m : ImageManager) : List Int → ImageManager
  | [] => m
  | p :: ps => applyResizes c (ImageManager.resize c m p) ps

/-- 21 pairwise-distinct resize percents: 100, 200, …, 2100. -/
def percList : List Int := (List.range 21).map (fun k => 100 * ((k : Int) + 1))

/-- A concrete instantiation of the external cv2 content functions, used for
closed counterexamples and witnesses. -/
def cv0 : Cv2 := ⟨fun b => b.data, fun _ w h => List.replicate (w * h) (0, 0, 0)⟩

/-- A concrete 1×1 pure-red (BGR `(0,0,255)`) buffer. -/
def buf1 : ImageBuffer := ⟨1, 1, [(0, 0, 255)]⟩

/-- A concrete 2×2 pure-red buffer. -/
def buf2 : ImageBuffer := ⟨2, 2, List.replicate 4 (0, 0, 255)⟩

/-- A concrete 50×50 black buffer. -/
def buf50 : ImageBuffer := ⟨50, 50, List.replicate 2500 (0, 0, 0)⟩

/-- The session immediately after loading `buf1`. -/
def mLoaded : ImageManager := ⟨some buf1, some buf1, some buf1, [], []⟩

/-- The session immediately after loading `buf2`. -/
def mLoaded2 : ImageManager := ⟨some buf2, some buf2, some buf2, [], []⟩

/-- The session immediately after loading `buf50`. -/
def mLoaded50 : ImageManager := ⟨some buf50, some buf50, some buf50, [], []⟩

/-- A loaded session whose undo stack is at the 20-entry bound. -/
def mFullHistory : ImageManager :=
  ⟨some buf1, some buf1, some buf1, List.replicate 20 buf2, []⟩

/-- A loaded session with one undoable entry on the history stack. -/
def mUndoable : ImageManager :=
  ⟨some buf1, some buf1, some buf1, [buf2], []⟩

/-- The common shape of the state produced by every successful mutating
operation: history pushed, `current` replaced, `resize_base` possibly
replaced. -/
def mutated (m : ImageManager) (newCur : ImageBuffer) (rb : Option ImageBuffer) :
    ImageManager :=
  { m.push_history with current := some newCur, resize_base := rb }

/-! ### Helper lemmas about the engine operations -/

lemma push_history_spec (m : ImageManager) (cur : ImageBuffer) (hc : m.current = some cur) :
    m.push_history =
      { m with
        history := if (m.history ++ [cur]).length > 20
                   then (m.history ++ [cur]).drop 1 else m.history ++ [cur],
        redo_stack := [] } := by
  unfold ImageManager.push_history
  rw [hc]

lemma push_history_current (m : ImageManager) : m.push_history.current = m.current := by
  unfold ImageManager.push_history
  cases h : m.current
  · exact h
  · rfl

lemma push_history_resize_base (m : ImageManager) :
    m.push_history.resize_base = m.resize_base := by
  unfold ImageManager.push_history
  cases h : m.current <;> rfl

lemma push_history_original (m : ImageManager) :
    m.push_history.original = m.original := by
  unfold ImageManager.push_history
  cases h : m.current <;> rfl

lemma push_history_redo (m : ImageManager) (cur : ImageBuffer) (hc : m.current = some cur) :
    m.push_history.redo_stack = [] := by
  rw [push_history_spec m cur hc]

lemma capped_getLast? (l : List ImageBuffer) (a : ImageBuffer) :
    (if (l ++ [a]).length > 20 then (l ++ [a]).drop 1 else l ++ [a]).getLast? = some a := by
  split
  · rename_i hlen
    cases l with
    | nil => simp at hlen
    | cons x xs => simp
  · simp

lemma push_history_getLast (m : ImageManager) (cur : ImageBuffer)
    (hc : m.current = some cur) :
    m.push_history.history.getLast? = some cur := by
  rw [push_history_spec m cur hc]
  exact capped_getLast? m.history cur

lemma undo_eq (m : ImageManager) (prev cur : ImageBuffer)
    (hl : m.history.getLast? = some prev) (hc : m.current = some cur) :
    m.undo = .ok ({ m with current := some prev,
                           resize_base := some prev,
                           history := m.history.dropLast,
                           redo_stack := m.redo_stack ++ [cur] }, true) := by
  unfold ImageManager.undo
  rw [hl, hc]

lemma undo_noop (m : ImageManager) (hl : m.history.getLast? = none) :
    m.undo = .ok (m, false) := by
  unfold ImageManager.undo
  rw [hl]

lemma redo_eq (m : ImageManager) (nxt cur : ImageBuffer)
    (hl : m.redo_stack.getLast? = some nxt) (hc : m.current = some cur) :
    m.redo = .ok ({ m with current := some nxt,
                           resize_base := some nxt,
                           history := m.history ++ [cur],
                           redo_stack := m.redo_stack.dropLast }, true) := by
  unfold ImageManager.redo
  rw [hl, hc]

lemma redo_noop (m : ImageManager) (hl : m.redo_stack.getLast? = none) :
    m.redo = .ok (m, false) := by
  unfold ImageManager.redo
  rw [hl]

lemma grayscale_eq (m : ImageManager) (cur : ImageBuffer) (hc : m.current = some cur) :
    m.grayscale = { m.push_history with current := some (grayBGR cur) } := by
  unfold ImageManager.grayscale
  rw [hc]

lemma blur_eq (c : Cv2) (m : ImageManager) (cur : ImageBuffer) (hc : m.current = some cur) :
    m.blur c = { m.push_history with current := some (c.gaussianBlur cur) } := by
  unfold ImageManager.blur
  rw [hc]

lemma resize_eq (c : Cv2) (m : ImageManager) (base : ImageBuffer) (p : Int)
    (hb : m.resize_base = some base) :
    ImageManager.resize c m p =
      { m.push_history with current := some (c.resizeImg base
          (max 1 (Int.tdiv ((base.width : Int) * p) 100)).toNat
          (max 1 (Int.tdiv ((base.height : Int) * p) 100)).toNat) } := by
  unfold ImageManager.resize
  rw [hb]

lemma resize_none (c : Cv2) (m : ImageManager) (p : Int) (hb : m.resize_base = none) :
    ImageManager.resize c m p = m := by
  unfold ImageManager.resize
  rw [hb]

lemma crop_ok_shape (m m' : ImageManager) (coords : Int × Int × Int × Int)
    (cur : ImageBuffer) (hc : m.current = some cur)
    (hop : m.crop coords = .ok m') :
    ∃ newCur, m' = mutated m newCur (some newCur) := by
  obtain ⟨x1, y1, x2, y2⟩ := coords
  unfold ImageManager.crop at hop
  rw [hc] at hop
  dsimp only at hop
  split at hop
  · simp at hop
  · simp only [Except.ok.injEq] at hop
    exact ⟨_, hop.symm⟩

lemma applyOp_shape (c : Cv2) (op : MutOp) (m m' : ImageManager) (cur : ImageBuffer)
    (hc : m.current = some cur) (hb : m.resize_base.isSome)
    (hop : applyOp c op m = .ok m') :
    ∃ newCur rb, m' = mutated m newCur rb := by
  cases op with
  | cropOp coords =>
      obtain ⟨newCur, h⟩ := crop_ok_shape m m' coords cur hc hop
      exact ⟨newCur, some newCur, h⟩
  | resizeOp p =>
      obtain ⟨base, hbase⟩ := Option.isSome_iff_exists.mp hb
      simp only [applyOp, Except.ok.injEq] at hop
      rw [resize_eq c m base p hbase] at hop
      exact ⟨_, _, hop.symm⟩
  | grayscaleOp =>
      simp only [applyOp, Except.ok.injEq] at hop
      rw [grayscale_eq m cur hc] at hop
      exact ⟨_, _, hop.symm⟩
  | blurOp =>
      simp only [applyOp, Except.ok.injEq] at hop
      rw [blur_eq c m cur hc] at hop
      exact ⟨_, _, hop.symm⟩

lemma mutated_current (m : ImageManager) (newCur : ImageBuffer)
    (rb : Option ImageBuffer) : (mutated m newCur rb).current = some newCur := rfl

lemma mutated_redo (m : ImageManager) (cur newCur : ImageBuffer)
    (rb : Option ImageBuffer) (hc : m.current = some cur) :
    (mutated m newCur rb).redo_stack = [] :=
  push_history_redo m cur hc

lemma mutated_getLast (m : ImageManager) (cur newCur : ImageBuffer)
    (rb : Option ImageBuffer) (hc : m.current = some cur) :
    (mutated m newCur rb).history.getLast? = some cur :=
  push_history_getLast m cur hc

lemma mutated_undo (m : ImageManager) (cur newCur : ImageBuffer)
    (rb : Option ImageBuffer) (hc : m.current = some cur) :
    (mutated m newCur rb).undo =
      .ok ({ mutated m newCur rb with
             current := some cur,
             resize_base := some cur,
             history := (mutated m newCur rb).history.dropLast,
             redo_stack := [newCur] }, true) := by
  rw [undo_eq (mutated m newCur rb) cur newCur
    (mutated_getLast m cur newCur rb hc) (mutated_current m newCur rb),
    mutated_redo m cur newCur rb hc]
  simp

lemma afterUndo_of_mutated (m : ImageManager) (cur newCur : ImageBuffer)
    (rb : Option ImageBuffer) (hc : m.current = some cur) :
    afterUndo (mutated m newCur rb) =
      { mutated m newCur rb with
        current := some cur,
        resize_base := some cur,
        history := (mutated m newCur rb).history.dropLast,
        redo_stack := [newCur] } := by
  unfold afterUndo
  rw [mutated_undo m cur newCur rb hc]

/-- **C6.** For any single successful mutating operation (crop, resize,
grayscale, or blur) applied in a loaded state, calling `undo()` afterward
restores a `current` buffer byte-identical to the pre-operation `current`,
and calling `redo()` after that undo restores a `current` buffer
byte-identical to the post-operation `current`. -/
theorem mutate_undo_redo_roundtrip (c : Cv2) (op : MutOp) (m m' : ImageManager)
    (cur : ImageBuffer) (hc : m.current = some cur) (hb : m.resize_base.isSome)
    (hop : applyOp c op m = .ok m') :
    m'.undo = .ok (afterUndo m', true) ∧
    (afterUndo m').current = some cur ∧
    (afterUndo m').redo = .ok (afterRedo (afterUndo m'), true) ∧
    (afterRedo (afterUndo m')).current = m'.current := by
  obtain ⟨newCur, rb, rfl⟩ := applyOp_shape c op m m' cur hc hb hop
  have hu := mutated_undo m cur newCur rb hc
  have hau := afterUndo_of_mutated m cur newCur rb hc
  have h1 : (afterUndo (mutated m newCur rb)).redo_stack.getLast? = some newCur := by
    rw [hau]
    simp
  have h2 : (afterUndo (mutated m newCur rb)).current = some cur := by
    rw [hau]
  have hredo := redo_eq (afterUndo (mutated m newCur rb)) newCur cur h1 h2
  have hdrop : (afterUndo (mutated m newCur rb)).redo_stack.dropLast = [] := by
    rw [hau]
    simp
  have hared : afterRedo (afterUndo (mutated m newCur rb)) =
      { afterUndo (mutated m newCur rb) with
        current := some newCur,
        resize_base := some newCur,
        history := (afterUndo (mutated m newCur rb)).history ++ [cur],
        redo_stack := (afterUndo (mutated m newCur rb)).redo_stack.dropLast } := by
    unfold afterRedo
    rw [hredo]
  refine ⟨?_, h2, ?_, ?_⟩
  · rw [hau]
    exact hu
  · rw [hared]
    exact hredo
  · rw [hared]
    rfl

/-- Witness for C6: a concrete grayscale on a freshly loaded 1×1 image. -/
theorem mutate_undo_redo_roundtrip_witness :
    (mLoaded.grayscale).undo = .ok (afterUndo mLoaded.grayscale, true) ∧
    (afterUndo mLoaded.grayscale).current = some buf1 ∧
    (afterUndo mLoaded.grayscale).redo =
      .ok (afterRedo (afterUndo mLoaded.grayscale), true) ∧
    (afterRedo (afterUndo mLoaded.grayscale)).current = mLoaded.grayscale.current :=
  mutate_undo_redo_roundtrip cv0 .grayscaleOp mLoaded mLoaded.grayscale buf1
    rfl rfl rfl

/-- **C1 counterexample.** Immediately after a successful `grayscale()` on a
freshly loaded 1×1 red image, `resize_base` (still the red pixel) differs
from `current` (the gray pixel): the code does not re-sync `resize_base`
after grayscale, so the claim as stated is false. -/
theorem grayscale_resize_base_desync :
    (mLoaded.grayscale).resize_base ≠ (mLoaded.grayscale).current := by
  decide

/-- **C1 (amended).** `resize_base` is byte-identical to `current`
immediately after successful `load`, `crop`, `undo`, `redo` and `reset`;
`grayscale` and `blur` leave `resize_base` unchanged (hence possibly
different from `current`); `resize` reads `resize_base` but never modifies
it. -/
theorem resize_base_tracking (c : Cv2) (m ml mc : ImageManager)
    (img : Option ImageBuffer) (coords : Int × Int × Int × Int)
    (r r' : ImageManager × Bool) (p : Int) :
    (m.load img = .ok ml → ml.resize_base = ml.current) ∧
    (m.crop coords = .ok mc → mc.resize_base = mc.current) ∧
    (m.grayscale.resize_base = m.resize_base) ∧
    ((m.blur c).resize_base = m.resize_base) ∧
    (m.undo = .ok r → r.2 = true → r.1.resize_base = r.1.current) ∧
    (m.redo = .ok r' → r'.2 = true → r'.1.resize_base = r'.1.current) ∧
    (m.reset.2 = true → m.reset.1.resize_base = m.reset.1.current) ∧
    ((ImageManager.resize c m p).resize_base = m.resize_base) := by
  refine ⟨?_, ?_, ?_, ?_, ?_, ?_, ?_, ?_⟩
  · intro h
    cases img with
    | none => simp [ImageManager.load] at h
    | some i =>
        simp only [ImageManager.load, Except.ok.injEq] at h
        rw [← h]
  · intro h
    have hcur : ∃ cur, m.current = some cur := by
      unfold ImageManager.crop at h
      cases hc : m.current with
      | none => rw [hc] at h; simp at h
      | some cur => exact ⟨cur, rfl⟩
    obtain ⟨cur, hc⟩ := hcur
    obtain ⟨newCur, rfl⟩ := crop_ok_shape m mc coords cur hc h
    rfl
  · cases hc : m.current with
    | none => unfold ImageManager.grayscale; rw [hc]
    | some cur => rw [grayscale_eq m cur hc]; exact push_history_resize_base m
  · cases hc : m.current with
    | none => unfold ImageManager.blur; rw [hc]
    | some cur => rw [blur_eq c m cur hc]; exact push_history_resize_base m
  · intro h ht
    cases hl : m.history.getLast? with
    | none =>
        rw [undo_noop m hl] at h
        simp only [Except.ok.injEq] at h
        rw [← h] at ht
        simp at ht
    | some prev =>
        cases hc : m.current with
        | none => unfold ImageManager.undo at h; rw [hl, hc] at h; simp at h
        | some cur =>
            rw [undo_eq m prev cur hl hc] at h
            simp only [Except.ok.injEq] at h
            rw [← h]
  · intro h ht
    cases hl : m.redo_stack.getLast? with
    | none =>
        rw [redo_noop m hl] at h
        simp only [Except.ok.injEq] at h
        rw [← h] at ht
        simp at ht
    | some nxt =>
        cases hc : m.current with
        | none => unfold ImageManager.redo at h; rw [hl, hc] at h; simp at h
        | some cur =>
            rw [redo_eq m nxt cur hl hc] at h
            simp only [Except.ok.injEq] at h
            rw [← h]
  · intro ht
    unfold ImageManager.reset at ht ⊢
    cases ho : m.original with
    | none => rw [ho] at ht; simp at ht
    | some o => rfl
  · cases hb : m.resize_base with
    | none => rw [resize_none c m p hb, hb]
    | some base =>
        rw [resize_eq c m base p hb]
        show m.push_history.resize_base = some base
        rw [push_history_resize_base m, hb]

/-- Witness for C1 (amended): concrete load / crop / undo / reset on small
buffers. -/
theorem resize_base_tracking_witness :
    (ImageManager.init.load (some buf1) = .ok mLoaded →
      mLoaded.resize_base = mLoaded.current) ∧
    (ImageManager.init.crop (0, 0, 1, 1) = .ok mLoaded →
      mLoaded.resize_base = mLoaded.current) ∧
    (ImageManager.init.grayscale.resize_base = ImageManager.init.resize_base) ∧
    ((ImageManager.init.blur cv0).resize_base = ImageManager.init.resize_base) ∧
    (ImageManager.init.undo = .ok (ImageManager.init, false) →
      (ImageManager.init, false).2 = true →
      (ImageManager.init, false).1.resize_base = (ImageManager.init, false).1.current) ∧
    (ImageManager.init.redo = .ok (ImageManager.init, false) →
      (ImageManager.init, false).2 = true →
      (ImageManager.init, false).1.resize_base = (ImageManager.init, false).1.current) ∧
    (ImageManager.init.reset.2 = true →
      ImageManager.init.reset.1.resize_base = ImageManager.init.reset.1.current) ∧
    ((ImageManager.resize cv0 ImageManager.init 50).resize_base =
      ImageManager.init.resize_base) :=
  resize_base_tracking cv0 ImageManager.init mLoaded mLoaded (some buf1)
    (0, 0, 1, 1) (ImageManager.init, false) (ImageManager.init, false) 50

lemma undo_true_inv (m m1 : ImageManager) (h : m.undo = .ok (m1, true)) :
    ∃ prev, m1.current = some prev ∧ m1.resize_base = some prev := by
  cases hl : m.history.getLast? with
  | none => rw [undo_noop m hl] at h; simp at h
  | some prev =>
      cases hc : m.current with
      | none => unfold ImageManager.undo at h; rw [hl, hc] at h; simp at h
      | some cur =>
          rw [undo_eq m prev cur hl hc] at h
          simp only [Except.ok.injEq, Prod.mk.injEq] at h
          obtain ⟨h1, -⟩ := h
          exact ⟨prev, by rw [← h1], by rw [← h1]⟩

/-- **C4.** Every operation that mutates `current` (crop, resize, grayscale,
blur) first pushes a snapshot of the pre-mutation `current` onto the undo
stack and clears the redo stack, unconditionally for every operation kind;
consequently, after any such mutating call issued immediately after a
successful `undo()`, a subsequent `redo()` reports no-op. -/
theorem mutators_push_and_clear (c : Cv2) (op : MutOp) (m m' m1 m2 : ImageManager)
    (cur : ImageBuffer) :
    (m.current = some cur → m.resize_base.isSome → applyOp c op m = .ok m' →
      m'.redo_stack = [] ∧ m'.history.getLast? = some cur) ∧
    (m.undo = .ok (m1, true) → applyOp c op m1 = .ok m2 →
      m2.redo = .ok (m2, false)) := by
  constructor
  · intro hc hb hop
    obtain ⟨newCur, rb, rfl⟩ := applyOp_shape c op m m' cur hc hb hop
    exact ⟨mutated_redo m cur newCur rb hc, mutated_getLast m cur newCur rb hc⟩
  · intro hu hop
    obtain ⟨prev, hc1, hb1⟩ := undo_true_inv m m1 hu
    have hb1' : m1.resize_base.isSome := by rw [hb1]; rfl
    obtain ⟨newCur, rb, rfl⟩ := applyOp_shape c op m1 m2 prev hc1 hb1' hop
    exact redo_noop _ (by rw [mutated_redo m1 prev newCur rb hc1]; rfl)

/-- Witness for C4: grayscale on concrete loaded states. -/
theorem mutators_push_and_clear_witness :
    ((mUndoable.grayscale).redo_stack = [] ∧
      (mUndoable.grayscale).history.getLast? = some buf1) ∧
    ((afterUndo mUndoable).grayscale.redo =
      .ok ((afterUndo mUndoable).grayscale, false)) := by
  have h := mutators_push_and_clear cv0 .grayscaleOp mUndoable mUndoable.grayscale
    (afterUndo mUndoable) ((afterUndo mUndoable).grayscale) buf1
  exact ⟨h.1 rfl rfl rfl, h.2 rfl rfl⟩

lemma push_history_bound (m : ImageManager)
    (h : m.history.length + m.redo_stack.length ≤ 20) :
    m.push_history.history.length + m.push_history.redo_stack.length ≤ 20 := by
  cases hc : m.current with
  | none =>
      unfold ImageManager.push_history
      rw [hc]
      exact h
  | some cur =>
      rw [push_history_spec m cur hc]
      show (if (m.history ++ [cur]).length > 20 then (m.history ++ [cur]).drop 1
            else m.history ++ [cur]).length + ([] : List ImageBuffer).length ≤ 20
      split
      · rename_i hgt
        simp only [List.length_drop, List.length_append, List.length_nil,
          List.length_singleton] at *
        omega
      · rename_i hle
        simp only [List.length_append, List.length_nil, List.length_singleton] at *
        omega

lemma crop_ok_current (m m' : ImageManager) (coords : Int × Int × Int × Int)
    (h : m.crop coords = .ok m') : ∃ cur, m.current = some cur := by
  unfold ImageManager.crop at h
  cases hc : m.current with
  | none => rw [hc] at h; simp at h
  | some cur => exact ⟨cur, rfl⟩

lemma reachable_stack_sum (c : Cv2) (m : ImageManager) (h : Reachable c m) :
    m.history.length + m.redo_stack.length ≤ 20 := by
  induction h with
  | start => simp [ImageManager.init]
  | loadStep m0 img m' _ hl ih =>
      cases img with
      | none => simp [ImageManager.load] at hl
      | some i =>
          simp only [ImageManager.load, Except.ok.injEq] at hl
          rw [← hl]
          simp
  | cropStep m0 coords m' _ hop ih =>
      obtain ⟨cur, hc⟩ := crop_ok_current m0 m' coords hop
      obtain ⟨newCur, rfl⟩ := crop_ok_shape m0 m' coords cur hc hop
      exact push_history_bound m0 ih
  | resizeStep m0 p _ ih =>
      cases hb : m0.resize_base with
      | none => rw [resize_none c m0 p hb]; exact ih
      | some base =>
          rw [resize_eq c m0 base p hb]
          exact push_history_bound m0 ih
  | grayscaleStep m0 _ ih =>
      cases hc : m0.current with
      | none => unfold ImageManager.grayscale; rw [hc]; exact ih
      | some cur =>
          rw [grayscale_eq m0 cur hc]
          exact push_history_bound m0 ih
  | blurStep m0 _ ih =>
      cases hc : m0.current with
      | none => unfold ImageManager.blur; rw [hc]; exact ih
      | some cur =>
          rw [blur_eq c m0 cur hc]
          exact push_history_bound m0 ih
  | undoStep m0 r _ hu ih =>
      cases hl : m0.history.getLast? with
      | none =>
          rw [undo_noop m0 hl] at hu
          simp only [Except.ok.injEq] at hu
          rw [← hu]
          exact ih
      | some prev =>
          cases hc : m0.current with
          | none => unfold ImageManager.undo at hu; rw [hl, hc] at hu; simp at hu
          | some cur =>
              rw [undo_eq m0 prev cur hl hc] at hu
              simp only [Except.ok.injEq] at hu
              rw [← hu]
              have hne : m0.history ≠ [] := by
                intro e
                rw [e] at hl
                simp at hl
              have hpos : 0 < m0.history.length := List.length_pos.mpr hne
              simp only [List.length_dropLast, List.length_append,
                List.length_singleton]
              omega
  | redoStep m0 r _ hr ih =>
      cases hl : m0.redo_stack.getLast? with
      | none =>
          rw [redo_noop m0 hl] at hr
          simp only [Except.ok.injEq] at hr
          rw [← hr]
          exact ih
      | some nxt =>
          cases hc : m0.current with
          | none => unfold ImageManager.redo at hr; rw [hl, hc] at hr; simp at hr
          | some cur =>
              rw [redo_eq m0 nxt cur hl hc] at hr
              simp only [Except.ok.injEq] at hr
              rw [← hr]
              have hne : m0.redo_stack ≠ [] := by
                intro e
                rw [e] at hl
                simp at hl
              have hpos : 0 < m0.redo_stack.length := List.length_pos.mpr hne
              simp only [List.length_dropLast, List.length_append,
                List.length_singleton]
              omega
  | resetStep m0 _ ih =>
      unfold ImageManager.reset
      cases ho : m0.original with
      | none => exact ih
      | some o => simp

/-- **C5.** In every reachable state the undo stack's length is at most 20;
pushing past the bound evicts the oldest (front) entry; and after 21
sequential distinct mutating operations from a freshly loaded state,
`undo()` returns success exactly 20 times and then returns no-op. -/
theorem undo_stack_bounded (c : Cv2) (m mf : ImageManager) (cur : ImageBuffer) :
    (Reachable c m → m.history.length ≤ 20) ∧
    (mf.current = some cur → mf.history.length = 20 →
      mf.push_history.history = mf.history.drop 1 ++ [cur] ∧
      mf.push_history.history.length = 20) ∧
    undoResults 21 (applyResizes cv0 mLoaded percList) =
      List.replicate 20 true ++ [false] := by
  refine ⟨?_, ?_, by decide⟩
  · intro h
    have := reachable_stack_sum c m h
    omega
  · intro hc hlen
    have hcond : (mf.history ++ [cur]).length > 20 := by
      simp [hlen]
    constructor
    · rw [push_history_spec mf cur hc]
      show (if (mf.history ++ [cur]).length > 20 then (mf.history ++ [cur]).drop 1
            else mf.history ++ [cur]) = mf.history.drop 1 ++ [cur]
      rw [if_pos hcond]
      exact List.drop_append_of_le_length (by omega)
    · rw [push_history_spec mf cur hc]
      show (if (mf.history ++ [cur]).length > 20 then (mf.history ++ [cur]).drop 1
            else mf.history ++ [cur]).length = 20
      rw [if_pos hcond]
      simp [hlen]

/-- Witness for C5: the initial state is reachable, and a concrete loaded
state with a full 20-entry history exercises the eviction clause. -/
theorem undo_stack_bounded_witness :
    (ImageManager.init.history.length ≤ 20) ∧
    (mFullHistory.push_history.history = mFullHistory.history.drop 1 ++ [buf1] ∧
      mFullHistory.push_history.history.length = 20) ∧
    undoResults 21 (applyResizes cv0 mLoaded percList) =
      List.replicate 20 true ++ [false] := by
  have h := undo_stack_bounded cv0 ImageManager.init mFullHistory buf1
  exact ⟨h.1 Reachable.start, h.2.1 rfl rfl, h.2.2⟩

/-- **C2.** From any loaded state with a 50×50 `resize_base`, `resize(50)`
makes `current` 25×25 and a subsequent `resize(200)` makes `current`
100×100 (`resize_base` scaled by 200%, not a 200%-of-50% composition), with
`resize_base` unchanged by both calls. -/
theorem resize_from_base_50_200 (c : Cv2) (m : ImageManager) (b : ImageBuffer)
    (hb : m.resize_base = some b) (hw : b.width = 50) (hh : b.height = 50) :
    ((ImageManager.resize c m 50).current.map ImageBuffer.width = some 25 ∧
     (ImageManager.resize c m 50).current.map ImageBuffer.height = some 25) ∧
    ((ImageManager.resize c (ImageManager.resize c m 50) 200).current.map
        ImageBuffer.width = some 100 ∧
     (ImageManager.resize c (ImageManager.resize c m 50) 200).current.map
        ImageBuffer.height = some 100) ∧
    (ImageManager.resize c m 50).resize_base = m.resize_base ∧
    (ImageManager.resize c (ImageManager.resize c m 50) 200).resize_base =
      m.resize_base := by
  have hrb1 : (ImageManager.resize c m 50).resize_base = some b := by
    rw [resize_eq c m b 50 hb]
    show m.push_history.resize_base = some b
    rw [push_history_resize_base m, hb]
  refine ⟨⟨?_, ?_⟩, ⟨?_, ?_⟩, ?_, ?_⟩
  · rw [resize_eq c m b 50 hb]
    show some ((max 1 (Int.tdiv ((b.width : Int) * 50) 100)).toNat) = some 25
    rw [hw]
    decide
  · rw [resize_eq c m b 50 hb]
    show some ((max 1 (Int.tdiv ((b.height : Int) * 50) 100)).toNat) = some 25
    rw [hh]
    decide
  · rw [resize_eq c (ImageManager.resize c m 50) b 200 hrb1]
    show some ((max 1 (Int.tdiv ((b.width : Int) * 200) 100)).toNat) = some 100
    rw [hw]
    decide
  · rw [resize_eq c (ImageManager.resize c m 50) b 200 hrb1]
    show some ((max 1 (Int.tdiv ((b.height : Int) * 200) 100)).toNat) = some 100
    rw [hh]
    decide
  · rw [hrb1, hb]
  · rw [resize_eq c (ImageManager.resize c m 50) b 200 hrb1]
    show (ImageManager.resize c m 50).push_history.resize_base = m.resize_base
    rw [push_history_resize_base, hrb1, hb]

/-- Witness for C2: a concrete freshly loaded 50×50 session. -/
theorem resize_from_base_50_200_witness :
    ((ImageManager.resize cv0 mLoaded50 50).current.map ImageBuffer.width = some 25 ∧
     (ImageManager.resize cv0 mLoaded50 50).current.map ImageBuffer.height = some 25) ∧
    ((ImageManager.resize cv0 (ImageManager.resize cv0 mLoaded50 50) 200).current.map
        ImageBuffer.width = some 100 ∧
     (ImageManager.resize cv0 (ImageManager.resize cv0 mLoaded50 50) 200).current.map
        ImageBuffer.height = some 100) ∧
    (ImageManager.resize cv0 mLoaded50 50).resize_base = mLoaded50.resize_base ∧
    (ImageManager.resize cv0 (ImageManager.resize cv0 mLoaded50 50) 200).resize_base =
      mLoaded50.resize_base :=
  resize_from_base_50_200 cv0 mLoaded50 buf50 rfl rfl rfl

/-- **C3 counterexample.** On a loaded 2×2 image, `resize(0)` computes both
target dimensions as 0 (below 1), yet the code neither raises any error nor
leaves the state unchanged: it silently clamps the dimensions to 1×1 and
pushes history. -/
theorem resize_clamps_not_fails :
    (ImageManager.resize cv0 mLoaded2 0).current.map ImageBuffer.width = some 1 ∧
    (ImageManager.resize cv0 mLoaded2 0).current.map ImageBuffer.height = some 1 ∧
    (ImageManager.resize cv0 mLoaded2 0).current ≠ mLoaded2.current ∧
    (ImageManager.resize cv0 mLoaded2 0).history ≠ mLoaded2.history := by
  exact ⟨rfl, rfl, by decide, by decide⟩

/-- **C3 (amended).** When either computed target dimension
`int(resizeBase.shape * percent / 100)` is below 1, `resize(percent)` does
not fail and does not leave the state unchanged: every dimension that is
below 1 is silently clamped to 1, and the session is still mutated (the
pre-call `current` is pushed onto the history).  No `DegenerateSizeError`
exists in the code. -/
theorem resize_degenerate_clamped (c : Cv2) (m : ImageManager)
    (base cur : ImageBuffer) (p : Int)
    (hb : m.resize_base = some base) (hc : m.current = some cur)
    (hdeg : Int.tdiv ((base.width : Int) * p) 100 < 1 ∨
            Int.tdiv ((base.height : Int) * p) 100 < 1) :
    (Int.tdiv ((base.width : Int) * p) 100 < 1 →
      (ImageManager.resize c m p).current.map ImageBuffer.width = some 1) ∧
    (Int.tdiv ((base.height : Int) * p) 100 < 1 →
      (ImageManager.resize c m p).current.map ImageBuffer.height = some 1) ∧
    (ImageManager.resize c m p).history.getLast? = some cur := by
  refine ⟨?_, ?_, ?_⟩
  · intro hw
    rw [resize_eq c m base p hb]
    show some ((max 1 (Int.tdiv ((base.width : Int) * p) 100)).toNat) = some 1
    rw [max_eq_left (le_of_lt hw)]
    rfl
  · intro hh
    rw [resize_eq c m base p hb]
    show some ((max 1 (Int.tdiv ((base.height : Int) * p) 100)).toNat) = some 1
    rw [max_eq_left (le_of_lt hh)]
    rfl
  · rw [resize_eq c m base p hb]
    show m.push_history.history.getLast? = some cur
    exact push_history_getLast m cur hc

/-- Witness for C3 (amended): `resize(0)` on a loaded 2×2 session, where
both computed dimensions are below 1 and both are clamped to 1. -/
theorem resize_degenerate_clamped_witness :
    (Int.tdiv ((buf2.width : Int) * 0) 100 < 1 →
      (ImageManager.resize cv0 mLoaded2 0).current.map ImageBuffer.width = some 1) ∧
    (Int.tdiv ((buf2.height : Int) * 0) 100 < 1 →
      (ImageManager.resize cv0 mLoaded2 0).current.map ImageBuffer.height = some 1) ∧
    (ImageManager.resize cv0 mLoaded2 0).history.getLast? = some buf2 :=
  resize_degenerate_clamped cv0 mLoaded2 buf2 buf2 0 rfl rfl (by decide)

/-- **C7.** For every loaded state and every rectangle whose ordered and
clamped result has zero or negative width or height, `crop` fails with the
typed "Invalid crop area" error (`invalidCropArea`) and — the call raising
before `push_history` and before any assignment — makes no state change:
the caller's `m` is untouched (validation strictly precedes mutation). -/
theorem crop_degenerate_rejected (m : ImageManager) (cur : ImageBuffer)
    (x1 y1 x2 y2 : Int) (hc : m.current = some cur)
    (hdeg : min (cur.width : Int) (max x1 x2) ≤ max 0 (min x1 x2) ∨
            min (cur.height : Int) (max y1 y2) ≤ max 0 (min y1 y2)) :
    m.crop (x1, y1, x2, y2) = .error .invalidCropArea := by
  unfold ImageManager.crop
  rw [hc]
  dsimp only
  rw [if_pos hdeg]

/-- Witness for C7: a zero-area rectangle on a loaded 1×1 session. -/
theorem crop_degenerate_rejected_witness :
    mLoaded.crop (0, 0, 0, 0) = .error .invalidCropArea :=
  crop_degenerate_rejected mLoaded buf1 0 0 0 0 rfl (by decide)

/-- **C8.** `crop((x2,y2,x1,y1))` with the two corner points inverted
produces exactly the same result state (or the same failure) as
`crop((x1,y1,x2,y2))`: the coordinates are internally ordered with
min/max before clamping. -/
theorem crop_order_independent (m : ImageManager) (x1 y1 x2 y2 : Int) :
    m.crop (x1, y1, x2, y2) = m.crop (x2, y2, x1, y1) := by
  unfold ImageManager.crop
  cases hc : m.current with
  | none => rfl
  | some cur =>
      dsimp only
      rw [min_comm x1 x2, max_comm x1 x2, min_comm y1 y2, max_comm y1 y2]

/-- **C9 counterexample.** On a loaded 2×2 image, `resize(75)` produces
width `int(2 * 75 / 100) = int(1.5) = 1`, whereas the claimed rounding of
the exact rational product would give `max(1, round(3/2)) = 2`: the code
truncates, it does not round. -/
theorem resize_truncates_not_rounds :
    (ImageManager.resize cv0 mLoaded2 75).current.map ImageBuffer.width = some 1 ∧
    max 1 (round ((2 * 75 : ℚ) / 100)) = 2 := by
  constructor
  · rfl
  · norm_num [round_eq]

/-- **C9 (amended).** For every loaded state and every percent, the
resulting `current` buffer's width is
`max(1, int(resizeBase.width * percent / 100))` where `int` truncates
toward zero (`Int.tdiv`), and likewise for height: truncation of the exact
product, not rounding. -/
theorem resize_dims_truncated (c : Cv2) (m : ImageManager) (base : ImageBuffer)
    (p : Int) (hb : m.resize_base = some base) :
    (ImageManager.resize c m p).current.map ImageBuffer.width =
      some (max 1 (Int.tdiv ((base.width : Int) * p) 100)).toNat ∧
    (ImageManager.resize c m p).current.map ImageBuffer.height =
      some (max 1 (Int.tdiv ((base.height : Int) * p) 100)).toNat := by
  rw [resize_eq c m base p hb]
  exact ⟨rfl, rfl⟩

/-- Witness for C9 (amended): `resize(35)` on a loaded 50×50 session gives
width `int(17.5) = 17`. -/
theorem resize_dims_truncated_witness :
    ((ImageManager.resize cv0 mLoaded50 35).current.map ImageBuffer.width =
      some (max 1 (Int.tdiv ((buf50.width : Int) * 35) 100)).toNat ∧
     (ImageManager.resize cv0 mLoaded50 35).current.map ImageBuffer.height =
      some (max 1 (Int.tdiv ((buf50.height : Int) * 35) 100)).toNat) ∧
    (max 1 (Int.tdiv ((buf50.width : Int) * 35) 100)).toNat = 17 :=
  ⟨resize_dims_truncated cv0 mLoaded50 buf50 35 rfl, by decide⟩

/-- **C10.** In the Empty state (before any successful load), `resize`
returns silently without raising and without modifying any session state
(its first check returns when `resize_base` is `None`), whereas `crop` is
not guarded at all: it dereferences the absent `current` buffer and fails
with the untyped `AttributeError` (`noneTypeError`), not a typed engine
error and not a no-op. -/
theorem empty_state_resize_silent_crop_crashes (c : Cv2) (m : ImageManager)
    (p : Int) (coords : Int × Int × Int × Int) :
    (m.resize_base = none → ImageManager.resize c m p = m) ∧
    (m.current = none → m.crop coords = .error .noneTypeError) := by
  constructor
  · exact resize_none c m p
  · intro hc
    unfold ImageManager.crop
    rw [hc]

/-- Witness for C10: the freshly constructed empty session. -/
theorem empty_state_resize_silent_crop_crashes_witness :
    (ImageManager.resize cv0 ImageManager.init 50 = ImageManager.init) ∧
    (ImageManager.init.crop (0, 0, 1, 1) = .error .noneTypeError) := by
  have h := empty_state_resize_silent_crop_crashes cv0 ImageManager.init 50 (0, 0, 1, 1)
  exact ⟨h.1 rfl, h.2 rfl⟩
